import Mathlib

/-!
# Verification of the TTS audio-assembly node

A shallow embedding of `src/nodes/ExampleNode/ExampleNode.node.ts`.

Conventions of the embedding:
* `Float32Array` / `Int16Array` contents are modelled as `List ℚ` / `List ℤ`;
  floating-point arithmetic is modelled over the rationals (every numeric value
  appearing in the verified properties is exactly representable in the source's
  number types).
* JavaScript's number-to-integer conversions are made explicit: `jsTrunc` is
  truncation toward zero (ToIntegerOrInfinity), `newFloat32Array` models the
  typed-array constructor's ToIndex conversion (RangeError on a negative
  integer length), and `wrapInt16` models storage into an `Int16Array`.
* JavaScript strings are modelled as Lean `String`s; `splitOnNewline` and
  `trimChars` model `split('\n')` and `trim()` (ASCII whitespace) over the
  underlying character list.
* The external TTS engine (`tts.generate`) is a parameter: a function from a
  sentence and a voice to either an error message or a `SynthResult`.
* The host environment's per-item parameter resolution (`getNodeParameter`)
  and input-data lookup (`getInputData`) are parameters of the item loop.
-/

/-- Decidable equality of `Except` values, for concrete evaluations. -/
instance {ε α : Type} [DecidableEq ε] [DecidableEq α] : DecidableEq (Except ε α) :=
  fun a b =>
    match a, b with
    | .error e, .error e' =>
      if h : e = e' then .isTrue (by rw [h]) else .isFalse (by intro hc; cases hc; exact h rfl)
    | .error _, .ok _ => .isFalse (by intro hc; cases hc)
    | .ok _, .error _ => .isFalse (by intro hc; cases hc)
    | .ok v, .ok v' =>
      if h : v = v' then .isTrue (by rw [h]) else .isFalse (by intro hc; cases hc; exact h rfl)

namespace TTS

/-- JavaScript ToIntegerOrInfinity on a finite number: truncation toward zero. -/
def jsTrunc (q : ℚ) : ℤ :=
  if q < 0 then ⌈q⌉ else ⌊q⌋

/-- Errors that the `execute` body can raise. `noText` is the
`NodeOperationError 'No text provided'`, `rangeError` is the `RangeError`
raised by a typed-array constructor on an invalid length, and `synthesis`
is an error thrown by `tts.generate`. -/
inductive JsError where
  | noText
  | rangeError
  | synthesis (msg : String)
deriving DecidableEq

/-- `new Float32Array(len)`: the length goes through ToIndex (truncation toward
zero, RangeError if the result is a negative integer); the buffer is
zero-initialized. -/
def newFloat32Array (len : ℚ) : Except JsError (List ℚ) :=
  let n := jsTrunc len
  if n < 0 then .error .rangeError else .ok (List.replicate n.toNat 0)

/-- `concatFloat32Arrays` (source lines 13–22): concatenate the chunk list into
one contiguous buffer. -/
def concatFloat32Arrays (arrays : List (List ℚ)) : List ℚ :=
  arrays.flatten

/-- Storage of an integer into an `Int16Array` slot: wrap modulo 2^16 into
[-32768, 32767]. -/
def wrapInt16 (n : ℤ) : ℤ :=
  let m := n % 65536
  if m < 32768 then m else m - 65536

/-- Assignment of a JS number to an `Int16Array` slot (ToInt16): truncate
toward zero, then wrap. -/
def toInt16 (q : ℚ) : ℤ :=
  wrapInt16 (jsTrunc q)

/-- `float32ToInt16` (source lines 25–34): clamp each sample to [-1, 1], scale
negative values by 0x8000 and non-negative ones by 0x7FFF, and store into an
`Int16Array`. -/
def float32ToInt16 (buffer : List ℚ) : List ℤ :=
  buffer.map (fun v =>
    let s := max (-1) (min 1 v)
    if s < 0 then toInt16 (s * 0x8000) else toInt16 (s * 0x7fff))

/-- ASCII whitespace, the characters `trim()` removes that can occur here. -/
def isWs (c : Char) : Bool :=
  c = ' ' || c = '\t' || c = '\n' || c = '\r' || c = '\x0b' || c = '\x0c'

/-- `trim()` on the character list: drop whitespace from both ends. -/
def trimChars (cs : List Char) : List Char :=
  ((cs.dropWhile isWs).reverse.dropWhile isWs).reverse

/-- `s.trim()` on a string. -/
def jsTrim (s : String) : String :=
  ⟨trimChars s.data⟩

/-- `split('\n')` on the character list: split at every newline, keeping empty
chunks (so `""` splits to `[""]`, and a trailing newline yields a trailing
empty chunk), exactly as JavaScript's `String.prototype.split`. -/
def splitOnNewline : List Char → List (List Char)
  | [] => [[]]
  | c :: rest =>
    if c = '\n' then [] :: splitOnNewline rest
    else
      match splitOnNewline rest with
      | [] => [[c]]
      | line :: lines => (c :: line) :: lines

/-- `text.split('\n')` as strings. -/
def splitLines (text : String) : List String :=
  (splitOnNewline text.data).map (fun l => ⟨l⟩)

/-- Source line 106: `text.split('\n').filter((sentence) => sentence.trim() !== '')`.
Note the kept lines are filtered on their trimmed form but are NOT themselves
trimmed. -/
def segment (text : String) : List String :=
  (splitLines text).filter (fun sentence => jsTrim sentence != "")

/-- The value returned by `tts.generate`: an audio buffer and the sampling
rate that produced it. -/
structure SynthResult where
  audio : List ℚ
  sampling_rate : ℚ
deriving DecidableEq

/-- The per-sentence loop, source lines 116–127: synthesize each sentence,
update the working sampling rate, recreate the pause buffer from it, and push
audio then pause onto the chunk list. -/
def assembleLoop (synth : String → Except String SynthResult) (pauseDuration : ℚ) :
    List String → ℚ → List (List ℚ) → Except JsError (ℚ × List (List ℚ))
  | [], samplingRate, audioChunks => .ok (samplingRate, audioChunks)
  | sentence :: rest, _, audioChunks =>
    match synth sentence with
    | .error msg => .error (.synthesis msg)
    | .ok rawAudio =>
      match newFloat32Array (rawAudio.sampling_rate * pauseDuration) with
      | .error e => .error e
      | .ok pauseSamples =>
        assembleLoop synth pauseDuration rest rawAudio.sampling_rate
          (audioChunks ++ [rawAudio.audio, pauseSamples])

/-- Source lines 108–130: seed the working rate at 22050, build the initial
pause buffer (its construction can raise), run the sentence loop, and
concatenate the chunks. Returns the final working rate and the flattened
buffer. -/
def assembleAudio (synth : String → Except String SynthResult)
    (sentences : List String) (pauseDuration : ℚ) : Except JsError (ℚ × List ℚ) :=
  let samplingRate : ℚ := 22050
  match newFloat32Array (samplingRate * pauseDuration) with
  | .error e => .error e
  | .ok _pauseSamples =>
    match assembleLoop synth pauseDuration sentences samplingRate [] with
    | .error e => .error e
    | .ok (finalRate, audioChunks) => .ok (finalRate, concatFloat32Arrays audioChunks)

/-- The arguments of `wav.fromScratch(1, samplingRate, '16', int16Samples)`
(source line 137): what is written into the WAV container. -/
structure WavFromScratch where
  channels : ℕ
  samplingRate : ℚ
  bitDepth : String
  samples : List ℤ
deriving DecidableEq

/-- The body of the per-item `try` block, source lines 100–148: empty text
raises `noText`; otherwise segment, assemble, quantize, and build the WAV
arguments. -/
def processItem (generate : String → String → Except String SynthResult)
    (voice : String) (pauseDuration : ℚ) (text : String) :
    Except JsError WavFromScratch :=
  if text = "" then .error .noText
  else
    match assembleAudio (fun s => generate s voice) (segment text) pauseDuration with
    | .error e => .error e
    | .ok (samplingRate, flattenedAudio) =>
      .ok { channels := 1, samplingRate := samplingRate, bitDepth := "16",
            samples := float32ToInt16 flattenedAudio }

/-- The silence generator of the spec, as the source realizes it at lines
112–113 and 121–122: `new Float32Array(samplingRate * pauseDuration)`. -/
def silence (samplingRate pauseDuration : ℚ) : Except JsError (List ℚ) :=
  newFloat32Array (samplingRate * pauseDuration)

/-- An entry of the `items` collection as the node manipulates it: the item's
json payload (modelled as a numeric identifier), the attached `binary.audio`
WAV arguments if any, and the attached `error` if any. A successful item is
one whose `audio` is set (the source also sets `json.ttsStatus`, subsumed
here by `audio ≠ none`). -/
structure OutItem where
  json : ℕ
  audio : Option WavFromScratch := none
  err : Option JsError := none
deriving DecidableEq

/-- `items[itemIndex].binary = { audio: ... }` (source lines 142–151): set the
audio attachment of the item at the given position, leaving the rest alone. -/
def setAudio (wav : WavFromScratch) : List OutItem → ℕ → List OutItem
  | [], _ => []
  | it :: rest, 0 => { it with audio := some wav } :: rest
  | it :: rest, n + 1 => it :: setAudio wav rest n

/-- The host-environment parameters of one `execute` run: per-item-index
resolution of the `text` parameter, the json payload `getInputData` yields for
an item index, the external TTS engine, and `continueOnFail()`. -/
structure Env where
  textOf : ℕ → String
  inputJson : ℕ → ℕ
  generate : String → String → Except String SynthResult
  continueOnFail : Bool

/-- Outcome of the item loop: normal completion with the final collection, an
error re-thrown with its item index (`continueOnFail` off), or fuel exhausted
(recording the collection and index reached, to observe unbounded runs). -/
inductive LoopOut where
  | done (items : List OutItem)
  | thrown (itemIndex : ℕ) (e : JsError)
  | outOfFuel (items : List OutItem) (itemIndex : ℕ)
deriving DecidableEq

/-- The per-item loop, source lines 97–167:
`for (let itemIndex = 0; itemIndex < items.length; itemIndex++)` — the bound
`items.length` is re-read every iteration, and the `catch` branch with
`continueOnFail()` pushes a fresh item (original json plus the error) onto
`items` itself. Fuel makes the possibly unbounded loop a total function. -/
def runLoop (env : Env) (voice : String) (pauseDuration : ℚ) :
    ℕ → List OutItem → ℕ → LoopOut
  | 0, items, itemIndex => .outOfFuel items itemIndex
  | fuel + 1, items, itemIndex =>
    if itemIndex < items.length then
      match processItem env.generate voice pauseDuration (env.textOf itemIndex) with
      | .ok wav =>
        runLoop env voice pauseDuration fuel (setAudio wav items itemIndex) (itemIndex + 1)
      | .error e =>
        if env.continueOnFail then
          runLoop env voice pauseDuration fuel
            (items ++ [{ json := env.inputJson itemIndex, err := some e }]) (itemIndex + 1)
        else .thrown itemIndex e
    else .done items

/-- `execute` (source lines 75–170), with the model load abstracted into
`env.generate`: the `voice` and `pauseDuration` parameters are resolved once,
at item index 0 (source lines 81–82), before the loop starts at index 0. -/
def executeNode (env : Env) (voiceOf : ℕ → String) (pauseOf : ℕ → ℚ)
    (fuel : ℕ) (items : List OutItem) : LoopOut :=
  runLoop env (voiceOf 0) (pauseOf 0) fuel items 0

/-! ## Evaluation lemmas for the typed-array constructor -/

theorem jsTrunc_of_nonneg {len : ℚ} (h : 0 ≤ len) : jsTrunc len = ⌊len⌋ := by
  simp [jsTrunc, not_lt.mpr h]

theorem newFloat32Array_of_nonneg {len : ℚ} (h : 0 ≤ len) :
    newFloat32Array len = .ok (List.replicate ⌊len⌋.toNat 0) := by
  rw [newFloat32Array, jsTrunc_of_nonneg h, if_neg (not_lt.mpr (Int.floor_nonneg.mpr h))]

theorem newFloat32Array_of_neg_small {len : ℚ} (h1 : -1 < len) (h2 : len < 0) :
    newFloat32Array len = .ok [] := by
  have hceil : ⌈len⌉ = 0 := by
    have hlow : (-1 : ℤ) < ⌈len⌉ := Int.lt_ceil.mpr (by exact_mod_cast h1)
    have hhigh : ⌈len⌉ ≤ 0 := Int.ceil_le.mpr (by exact_mod_cast h2.le)
    omega
  rw [newFloat32Array, jsTrunc, if_pos h2, hceil]
  simp

theorem newFloat32Array_of_le_neg_one {len : ℚ} (h : len ≤ -1) :
    newFloat32Array len = .error .rangeError := by
  have hlt : len < 0 := lt_of_le_of_lt h (by norm_num)
  have hceil : ⌈len⌉ ≤ -1 := Int.ceil_le.mpr (by exact_mod_cast h)
  rw [newFloat32Array, jsTrunc, if_pos hlt, if_pos (by omega)]

/-! ## The sentence loop under a synthesis script

`f` plays the role of a script for the external engine: when every synthesis
call succeeds, `f s` is the `SynthResult` the engine returns for sentence `s`.
-/

/-- The chunk list the sentence loop pushes for the given sentences: for each
sentence its audio, then a silence gap sized from that sentence's reported
rate. -/
def sentenceChunks (f : String → SynthResult) (pauseDuration : ℚ) :
    List String → List (List ℚ)
  | [] => []
  | s :: rest =>
    (f s).audio :: List.replicate ⌊(f s).sampling_rate * pauseDuration⌋.toNat 0 ::
      sentenceChunks f pauseDuration rest

theorem getLastD_map_cons (g : String → ℚ) (s : String) (rest : List String) (r : ℚ) :
    (((s :: rest).getLast?).map g).getD r = ((rest.getLast?).map g).getD (g s) := by
  cases rest with
  | nil => rfl
  | cons a t =>
    rw [List.getLast?_cons_cons]
    have hsome : (a :: t).getLast?.isSome := List.getLast?_isSome.mpr (by simp)
    obtain ⟨x, hx⟩ := Option.isSome_iff_exists.mp hsome
    rw [hx]
    rfl

theorem assembleLoop_ok (synth : String → Except String SynthResult)
    (f : String → SynthResult) (pauseDuration : ℚ) (hpause : 0 ≤ pauseDuration)
    (sentences : List String)
    (hsynth : ∀ s ∈ sentences, synth s = .ok (f s) ∧ 0 ≤ (f s).sampling_rate) :
    ∀ (r : ℚ) (acc : List (List ℚ)),
      assembleLoop synth pauseDuration sentences r acc =
        .ok ((((sentences.getLast?).map (fun s => (f s).sampling_rate)).getD r,
          acc ++ sentenceChunks f pauseDuration sentences)) := by
  induction sentences with
  | nil => intro r acc; simp [assembleLoop, sentenceChunks]
  | cons s rest ih =>
    intro r acc
    have hs := hsynth s (List.mem_cons_self s rest)
    have hrest : ∀ x ∈ rest, synth x = .ok (f x) ∧ 0 ≤ (f x).sampling_rate :=
      fun x hx => hsynth x (List.mem_cons_of_mem s hx)
    rw [assembleLoop]
    simp only [hs.1, newFloat32Array_of_nonneg (mul_nonneg hs.2 hpause)]
    rw [ih hrest, getLastD_map_cons]
    simp [sentenceChunks]

theorem length_flatten_sentenceChunks (f : String → SynthResult) (pauseDuration : ℚ)
    (sentences : List String) :
    (sentenceChunks f pauseDuration sentences).flatten.length =
      (sentences.map
        (fun s => (f s).audio.length + ⌊(f s).sampling_rate * pauseDuration⌋.toNat)).sum := by
  induction sentences with
  | nil => simp [sentenceChunks]
  | cons s rest ih => simp [sentenceChunks, ih]; ring

theorem assembleAudio_ok (synth : String → Except String SynthResult)
    (f : String → SynthResult) (pauseDuration : ℚ) (hpause : 0 ≤ pauseDuration)
    (sentences : List String)
    (hsynth : ∀ s ∈ sentences, synth s = .ok (f s) ∧ 0 ≤ (f s).sampling_rate) :
    assembleAudio synth sentences pauseDuration =
      .ok ((((sentences.getLast?).map (fun s => (f s).sampling_rate)).getD 22050,
        (sentenceChunks f pauseDuration sentences).flatten)) := by
  rw [assembleAudio, newFloat32Array_of_nonneg (mul_nonneg (by norm_num) hpause),
    assembleLoop_ok synth f pauseDuration hpause sentences hsynth 22050 []]
  simp [concatFloat32Arrays]

theorem processItem_ok (generate : String → String → Except String SynthResult)
    (voice : String) (f : String → SynthResult) (pauseDuration : ℚ) (text : String)
    (hpause : 0 ≤ pauseDuration) (htext : text ≠ "")
    (hsynth : ∀ s ∈ segment text,
      generate s voice = .ok (f s) ∧ 0 ≤ (f s).sampling_rate) :
    processItem generate voice pauseDuration text =
      .ok { channels := 1,
            samplingRate :=
              ((((segment text).getLast?).map (fun s => (f s).sampling_rate)).getD 22050),
            bitDepth := "16",
            samples :=
              float32ToInt16 ((sentenceChunks f pauseDuration (segment text)).flatten) } := by
  rw [processItem, if_neg htext,
    assembleAudio_ok (fun s => generate s voice) f pauseDuration hpause (segment text) hsynth]

/-! ## Claim theorems -/

/-- C1: for a job with at least one sentence and a non-negative pause
duration, when every synthesis call succeeds (scripted by `f`, reporting a
non-negative sampling rate), the assembled float32 buffer has length equal to
the sum over the sentences of the synthesized audio length plus a silence-gap
length computed from that sentence's reported rate — `n` gaps in all, the
trailing one included. -/
theorem C1_assembly_length (synth : String → Except String SynthResult)
    (f : String → SynthResult) (pauseDuration : ℚ) (sentences : List String)
    (hpause : 0 ≤ pauseDuration) (_hne : sentences ≠ [])
    (hsynth : ∀ s ∈ sentences, synth s = .ok (f s) ∧ 0 ≤ (f s).sampling_rate) :
    (assembleAudio synth sentences pauseDuration).toOption.map (fun p => p.2.length) =
      some ((sentences.map
        (fun s => (f s).audio.length + ⌊(f s).sampling_rate * pauseDuration⌋.toNat)).sum) := by
  rw [assembleAudio_ok synth f pauseDuration hpause sentences hsynth]
  simp only [Except.toOption, Option.map_some']
  rw [length_flatten_sentenceChunks]

/-- C1 witness: two sentences of three samples each at rate 4, pause 1/2:
every hypothesis holds and the assembled buffer length is (3 + 2) + (3 + 2). -/
theorem C1_assembly_length_witness :
    (assembleAudio (fun _ => .ok ⟨[0, 0, 0], 4⟩) ["a", "b"] (1/2)).toOption.map
        (fun p => p.2.length) =
      some (((["a", "b"] : List String).map
        (fun _ => ([0, 0, 0] : List ℚ).length + ⌊(4 : ℚ) * (1/2)⌋.toNat)).sum) :=
  C1_assembly_length (fun _ => .ok ⟨[0, 0, 0], 4⟩) (fun _ => ⟨[0, 0, 0], 4⟩) (1/2)
    ["a", "b"] (by norm_num) (by decide) (fun s _ => ⟨rfl, by norm_num⟩)

/-- The synthesis script used in concrete scenarios: one zero sample, at rate
8000 for the sentence `y` and 22050 otherwise. -/
def stubF (s : String) : SynthResult :=
  ⟨[0], if s = "y" then 8000 else 22050⟩

/-- The scripted engine for concrete scenarios, ignoring the voice. -/
def stubGen (s _voice : String) : Except String SynthResult :=
  .ok (stubF s)

/-- C2: when every synthesis call succeeds, the sampling rate written into the
WAV container (`fromScratch`'s rate argument) is the rate reported for the
last sentence, defaulting to the seed 22050 when there is none; and when the
sentence sequence is empty the result is exactly the seed rate with an empty
sample buffer. -/
theorem C2_last_rate_tags_wav (generate : String → String → Except String SynthResult)
    (voice : String) (f : String → SynthResult) (pauseDuration : ℚ) (text : String)
    (hpause : 0 ≤ pauseDuration) (htext : text ≠ "")
    (hsynth : ∀ s ∈ segment text,
      generate s voice = .ok (f s) ∧ 0 ≤ (f s).sampling_rate) :
    (processItem generate voice pauseDuration text).toOption.map WavFromScratch.samplingRate =
      some ((((segment text).getLast?).map (fun s => (f s).sampling_rate)).getD 22050) ∧
    (segment text = [] →
      processItem generate voice pauseDuration text =
        .ok { channels := 1, samplingRate := 22050, bitDepth := "16", samples := [] }) := by
  constructor
  · rw [processItem_ok generate voice f pauseDuration text hpause htext hsynth]
    rfl
  · intro hempty
    rw [processItem_ok generate voice f pauseDuration text hpause htext hsynth, hempty]
    simp [sentenceChunks, float32ToInt16]

/-- C2 witness: text `x\ny` segments to two sentences; the scripted engine
reports 22050 for `x` and 8000 for `y`, and the WAV rate is the last one,
8000. -/
theorem C2_last_rate_tags_wav_witness :
    (processItem stubGen "v" (1/2) "x\ny").toOption.map WavFromScratch.samplingRate =
      some ((((segment "x\ny").getLast?).map (fun s => (stubF s).sampling_rate)).getD 22050) ∧
    (segment "x\ny" = [] →
      processItem stubGen "v" (1/2) "x\ny" =
        .ok { channels := 1, samplingRate := 22050, bitDepth := "16", samples := [] }) :=
  C2_last_rate_tags_wav stubGen "v" stubF (1/2) "x\ny" (by norm_num) (by decide)
    (fun s _ => ⟨rfl, by simp only [stubF]; split <;> norm_num⟩)

/-- Per-sample quantization as the claim words it: clamp to [-1, 1], scale
negative values by 32768 and non-negative ones by 32767, truncating toward
the representable integer (toward zero, with no wrap-around). Stated from the
claim, to be compared with `float32ToInt16`. -/
def quantizeClaim (v : ℚ) : ℤ :=
  if max (-1) (min 1 v) < 0 then ⌈max (-1) (min 1 v) * 32768⌉
  else ⌊max (-1) (min 1 v) * 32767⌋

theorem wrapInt16_eq_self (n : ℤ) (h1 : -32768 ≤ n) (h2 : n ≤ 32767) :
    wrapInt16 n = n := by
  show (if n % 65536 < 32768 then n % 65536 else n % 65536 - 65536) = n
  split <;> omega

theorem clamp_ge (v : ℚ) : -1 ≤ max (-1) (min 1 v) := le_max_left _ _

theorem clamp_le (v : ℚ) : max (-1) (min 1 v) ≤ 1 :=
  max_le (by norm_num) (min_le_left _ _)

theorem toInt16_elem_eq_quantizeClaim (v : ℚ) :
    (if max (-1) (min 1 v) < 0 then toInt16 (max (-1) (min 1 v) * 0x8000)
     else toInt16 (max (-1) (min 1 v) * 0x7fff)) = quantizeClaim v := by
  have hs1 := clamp_ge v
  have hs2 := clamp_le v
  unfold quantizeClaim toInt16
  set s := max (-1) (min 1 v) with hsdef
  split
  case isTrue h =>
    have hx1 : (-32768 : ℚ) ≤ s * 32768 := by nlinarith
    have hx2 : s * 32768 ≤ 0 := by nlinarith
    have hneg : s * 32768 < 0 := by nlinarith
    rw [jsTrunc, if_pos hneg]
    refine wrapInt16_eq_self _ ?_ ?_
    · have hq : (-32768 : ℚ) ≤ (⌈s * 32768⌉ : ℚ) := le_trans hx1 (Int.le_ceil _)
      exact_mod_cast hq
    · have : ⌈s * 32768⌉ ≤ 0 := Int.ceil_le.mpr (by exact_mod_cast hx2)
      omega
  case isFalse h =>
    have hge : (0 : ℚ) ≤ s := not_lt.mp h
    have hx1 : (0 : ℚ) ≤ s * 32767 := by nlinarith
    have hx2 : s * 32767 ≤ 32767 := by nlinarith
    rw [jsTrunc, if_neg (not_lt.mpr hx1)]
    refine wrapInt16_eq_self _ ?_ ?_
    · have : (0 : ℤ) ≤ ⌊s * 32767⌋ := Int.floor_nonneg.mpr hx1
      omega
    · have : ⌊s * 32767⌋ ≤ ⌊(32767 : ℚ)⌋ := Int.floor_mono hx2
      have h32 : ⌊(32767 : ℚ)⌋ = 32767 := by norm_num
      omega

/-- C3: quantization clamps each sample to [-1, 1] and then scales negatives
by 32768 and non-negatives by 32767, truncating toward the representable
integer (`quantizeClaim`, the claim's wording), and the five boundary cases
take the stated values. -/
theorem C3_quantization :
    (∀ buffer : List ℚ, float32ToInt16 buffer = buffer.map quantizeClaim) ∧
    float32ToInt16 [1] = [32767] ∧ float32ToInt16 [-1] = [-32768] ∧
    float32ToInt16 [2] = [32767] ∧ float32ToInt16 [-2] = [-32768] ∧
    float32ToInt16 [0] = [0] := by
  have hmap : ∀ buffer : List ℚ, float32ToInt16 buffer = buffer.map quantizeClaim := by
    intro buffer
    unfold float32ToInt16
    exact List.map_congr_left (fun v _ => toInt16_elem_eq_quantizeClaim v)
  refine ⟨hmap, ?_, ?_, ?_, ?_, ?_⟩ <;>
    · rw [hmap]
      norm_num [quantizeClaim, Int.ceil_neg]

/-- C4 counterexample: the silence buffer built from rate 2 and duration 0.75
has `new Float32Array(1.5).length = 1` sample, not `round(1.5) = 2` — the
typed-array constructor truncates the length, it does not round it. -/
theorem C4_counterexample :
    silence 2 (3/4) = .ok [0] ∧ round ((2 : ℚ) * (3/4)) = 2 ∧
    ¬ (silence 2 (3/4)).toOption.map List.length = some (round ((2 : ℚ) * (3/4))).toNat := by
  have h1 : silence 2 (3/4) = .ok [0] := by
    rw [silence, show (2 : ℚ) * (3/4) = 3/2 by norm_num,
      newFloat32Array_of_nonneg (by norm_num)]
    norm_num
  have h2 : round ((2 : ℚ) * (3/4)) = 2 := by norm_num [round_eq]
  refine ⟨h1, h2, ?_⟩
  rw [h1, h2]
  decide

/-- C4 amended: for non-negative rate and duration the silence buffer has
exactly `⌊rate * duration⌋` samples — the length is truncated toward zero by
the `Float32Array` constructor, not rounded — all of zero amplitude; in
particular `silence 22050 0.5` has 11025 zero samples. -/
theorem C4_silence_length (rate d : ℚ) (h1 : 0 ≤ rate) (h2 : 0 ≤ d) :
    silence rate d = .ok (List.replicate ⌊rate * d⌋.toNat 0) ∧
    silence 22050 (1/2) = .ok (List.replicate 11025 0) := by
  constructor
  · rw [silence, newFloat32Array_of_nonneg (mul_nonneg h1 h2)]
  · rw [silence, show (22050 : ℚ) * (1/2) = 11025 by norm_num,
      newFloat32Array_of_nonneg (by norm_num)]
    norm_num
    decide

/-- C4 witness: rate 3 and duration 1/3 satisfy the hypotheses; the buffer has
`⌊3 * (1/3)⌋ = 1` sample. -/
theorem C4_silence_length_witness :
    silence 3 (1/3) = .ok (List.replicate ⌊(3 : ℚ) * (1/3)⌋.toNat 0) ∧
    silence 22050 (1/2) = .ok (List.replicate 11025 0) :=
  C4_silence_length 3 (1/3) (by norm_num) (by norm_num)

/-- Segmentation as the claim words it: split on newline, trim each resulting
line, drop the lines that are empty after trimming. Stated from the claim, to
be compared with `segment`. -/
def segmentClaim (text : String) : List String :=
  ((splitLines text).map jsTrim).filter (fun sentence => sentence != "")

/-- C5 counterexample: on the text made of a space followed by `a`, the code
keeps the line verbatim as `" a"` — the trimmed form is only used by the
filter predicate — while the claim's segmentation would return `"a"`. -/
theorem C5_counterexample :
    segment " a" = [" a"] ∧ segmentClaim " a" = ["a"] ∧
    segment " a" ≠ segmentClaim " a" ∧ jsTrim " a" ≠ " a" := by
  refine ⟨by decide, by decide, by decide, by decide⟩

/-- C5 amended: segmentation splits on the newline character only and drops
the lines that are empty after trimming, preserving relative order, but keeps
the surviving lines verbatim (untrimmed); every entry is therefore non-empty
and not whitespace-only, though it may carry surrounding whitespace; in
particular `segment "a\n\nb\n" = ["a", "b"]`. -/
theorem C5_segmentation (text : String) :
    (∀ s ∈ segment text, jsTrim s ≠ "") ∧
    List.Sublist (segment text) (splitLines text) ∧
    segment "a\n\nb\n" = ["a", "b"] := by
  refine ⟨?_, ?_, by decide⟩
  · intro s hs
    simpa using (List.mem_filter.mp hs).2
  · exact List.filter_sublist _

/-- C5 witness: the entry `"b"` of `segment "b"` is indeed not
whitespace-only. -/
theorem C5_segmentation_witness : ("b" ∈ segment "b") ∧ jsTrim "b" ≠ "" :=
  ⟨by decide, (C5_segmentation "b").1 "b" (by decide)⟩

/-- C6 counterexample: the whitespace-only text `" "` segments to the empty
sequence, yet processing does not raise — the `!text` check only catches the
empty string — and the item gains an audio attachment holding an empty WAV at
the seed rate. -/
theorem C6_counterexample :
    segment " " = [] ∧ jsTrim " " = "" ∧
    processItem (fun _ _ => .error "unused") "v" 0 " " =
      .ok { channels := 1, samplingRate := 22050, bitDepth := "16", samples := [] } := by
  refine ⟨by decide, by decide, ?_⟩
  have h := processItem_ok (fun _ _ => .error "unused") "v" (fun _ => ⟨[], 0⟩) 0 " "
    (by norm_num) (by decide)
    (by intro s hs; rw [show segment " " = [] from by decide] at hs; cases hs)
  rw [h, show segment " " = [] from by decide]
  simp [sentenceChunks, float32ToInt16]

/-- C6 amended: only a literally empty text raises the item-scoped
`noText` error (before segmentation), and an erroring item gains no audio; a
text that is non-empty but whitespace-only passes the check, segments to the
empty sequence, and gains an audio attachment holding an empty sample buffer
at the seed rate 22050. -/
theorem C6_empty_text (generate : String → String → Except String SynthResult)
    (voice : String) (pauseDuration : ℚ) (hpause : 0 ≤ pauseDuration) :
    (∀ text : String, text = "" →
      processItem generate voice pauseDuration text = .error .noText) ∧
    (∀ text : String, text ≠ "" → segment text = [] →
      processItem generate voice pauseDuration text =
        .ok { channels := 1, samplingRate := 22050, bitDepth := "16", samples := [] }) := by
  constructor
  · intro text htext
    subst htext
    rfl
  · intro text hne hseg
    have h := processItem_ok generate voice (fun _ => ⟨[], 0⟩) pauseDuration text hpause hne
      (by intro s hs; rw [hseg] at hs; cases hs)
    rw [h, hseg]
    simp [sentenceChunks, float32ToInt16]

/-- C6 witness: with a concrete engine and pause 0, the empty text errors and
the whitespace-only text `" "` succeeds with empty audio. -/
theorem C6_empty_text_witness :
    processItem stubGen "v" 0 "" = .error .noText ∧
    processItem stubGen "v" 0 " " =
      .ok { channels := 1, samplingRate := 22050, bitDepth := "16", samples := [] } :=
  ⟨(C6_empty_text stubGen "v" 0 (by norm_num)).1 "" rfl,
   (C6_empty_text stubGen "v" 0 (by norm_num)).2 " " (by decide) (by decide)⟩

/-! ## Evaluating the item loop under scripted outcomes

`runLoopModel` is the same recursion as `runLoop`, but reads each item's
processing outcome from a script indexed by item position; when the script is
concrete the model evaluates by the kernel, which lets concrete loop runs be
settled by `decide`. -/

def runLoopModel (outcome : ℕ → Except JsError WavFromScratch)
    (inputJson : ℕ → ℕ) (continueOnFail : Bool) :
    ℕ → List OutItem → ℕ → LoopOut
  | 0, items, itemIndex => .outOfFuel items itemIndex
  | fuel + 1, items, itemIndex =>
    if itemIndex < items.length then
      match outcome itemIndex with
      | .ok wav =>
        runLoopModel outcome inputJson continueOnFail fuel
          (setAudio wav items itemIndex) (itemIndex + 1)
      | .error e =>
        if continueOnFail then
          runLoopModel outcome inputJson continueOnFail fuel
            (items ++ [{ json := inputJson itemIndex, err := some e }]) (itemIndex + 1)
        else .thrown itemIndex e
    else .done items

theorem runLoop_eq_model (env : Env) (voice : String) (pauseDuration : ℚ)
    (outcome : ℕ → Except JsError WavFromScratch)
    (houtcome : ∀ idx,
      processItem env.generate voice pauseDuration (env.textOf idx) = outcome idx) :
    ∀ (fuel : ℕ) (items : List OutItem) (itemIndex : ℕ),
      runLoop env voice pauseDuration fuel items itemIndex =
        runLoopModel outcome env.inputJson env.continueOnFail fuel items itemIndex := by
  intro fuel
  induction fuel with
  | zero => intro items itemIndex; rfl
  | succ n ih =>
    intro items itemIndex
    rw [runLoop, runLoopModel, houtcome itemIndex]
    rcases outcome itemIndex with e | wav
    · simp only [ih]
    · simp only [ih]

/-- A scripted engine that fails on the sentence `y` and otherwise returns
one zero sample at 22050 Hz. -/
def failGen (s _voice : String) : Except String SynthResult :=
  if s = "y" then .error "synth boom" else .ok ⟨[0], 22050⟩

/-- The WAV arguments produced for the text `x` under `failGen` and pause 0. -/
def wavX : WavFromScratch := ⟨1, 22050, "16", [0]⟩

theorem processItem_failGen_x : processItem failGen "v" 0 "x" = .ok wavX := by
  have hseg : segment "x" = ["x"] := by decide
  have h := processItem_ok failGen "v" (fun _ => ⟨[0], 22050⟩) 0 "x" le_rfl (by decide)
    (by intro s hs; rw [hseg] at hs; simp at hs; subst hs; exact ⟨rfl, by norm_num⟩)
  rw [h, hseg]
  norm_num [wavX, sentenceChunks, float32ToInt16, toInt16, wrapInt16, jsTrunc]

theorem processItem_failGen_y :
    processItem failGen "v" 0 "y" = .error (.synthesis "synth boom") := by
  have hseg : segment "y" = ["y"] := by decide
  rw [processItem, if_neg (by decide : ¬("y" : String) = ""), hseg, assembleAudio,
    newFloat32Array_of_nonneg (by norm_num : (0 : ℚ) ≤ 22050 * 0)]
  rfl

/-- The three-items-with-a-middle-failure run: item indices 0 and 2 resolve to
the text `x` (synthesis succeeds), index 1 resolves to `y` (synthesis fails);
continue-on-failure is active. -/
def env7 : Env := ⟨fun i => if i = 1 then "y" else "x", fun i => i, failGen, true⟩

def outcome7 (idx : ℕ) : Except JsError WavFromScratch :=
  if idx = 1 then .error (.synthesis "synth boom") else .ok wavX

def items3 : List OutItem := [⟨0, none, none⟩, ⟨1, none, none⟩, ⟨2, none, none⟩]

theorem houtcome7 : ∀ idx,
    processItem env7.generate "v" 0 (env7.textOf idx) = outcome7 idx := by
  intro idx
  by_cases h : idx = 1 <;>
    simp [env7, outcome7, h, processItem_failGen_x, processItem_failGen_y]

theorem runLoop_env7_eval :
    runLoop env7 "v" 0 5 items3 0 =
      .done [⟨0, some wavX, none⟩, ⟨1, none, none⟩, ⟨2, some wavX, none⟩,
             ⟨1, some wavX, some (.synthesis "synth boom")⟩] := by
  rw [runLoop_eq_model env7 "v" 0 outcome7 houtcome7 5 items3 0]
  decide

/-- One failing iteration with continue-on-failure: the collection keeps the
failed item in place (unchanged) and gains an error item at the end, and the
loop moves on. -/
theorem runLoop_continueOnFail_append (env : Env) (voice : String) (pauseDuration : ℚ)
    (fuel : ℕ) (items : List OutItem) (itemIndex : ℕ) (e : JsError)
    (hlt : itemIndex < items.length) (hcont : env.continueOnFail = true)
    (hfail : processItem env.generate voice pauseDuration (env.textOf itemIndex) = .error e) :
    runLoop env voice pauseDuration (fuel + 1) items itemIndex =
      runLoop env voice pauseDuration fuel
        (items ++ [⟨env.inputJson itemIndex, none, some e⟩]) (itemIndex + 1) := by
  rw [runLoop, if_pos hlt, hfail, hcont]
  rfl

/-- C7 counterexample: synthesis fails on item 2 of 3 under continue-on-failure.
The run returns four items, not three: the successful items keep their
positions with audio, but the failed item also remains, bare, at its original
position, and the appended error item — re-visited by the loop — has even
gained an audio attachment; this differs from the claimed
`[item1-success, item3-success, item2-with-error]`. -/
theorem C7_counterexample :
    runLoop env7 "v" 0 5 items3 0 =
      .done [⟨0, some wavX, none⟩, ⟨1, none, none⟩, ⟨2, some wavX, none⟩,
             ⟨1, some wavX, some (.synthesis "synth boom")⟩] ∧
    runLoop env7 "v" 0 5 items3 0 ≠
      .done [⟨0, some wavX, none⟩, ⟨2, some wavX, none⟩,
             ⟨1, none, some (.synthesis "synth boom")⟩] := by
  refine ⟨runLoop_env7_eval, ?_⟩
  rw [runLoop_env7_eval]
  decide

/-- C7 amended: with continue-on-failure, a failing item leaves every other
item in place and appends an error item — carrying the input json and the
error — at the end of the collection, while the failed item itself also stays,
unmodified, at its original position; in the 2-of-3 failure scenario the
output is `[item1-success, item2-unchanged, item3-success, item2-error]`,
where the relocated error item, being re-visited by the loop, has additionally
acquired an audio attachment. -/
theorem C7_failed_item_appended (env : Env) (voice : String) (pauseDuration : ℚ)
    (fuel : ℕ) (items : List OutItem) (itemIndex : ℕ) (e : JsError)
    (hlt : itemIndex < items.length) (hcont : env.continueOnFail = true)
    (hfail : processItem env.generate voice pauseDuration (env.textOf itemIndex) = .error e) :
    runLoop env voice pauseDuration (fuel + 1) items itemIndex =
      runLoop env voice pauseDuration fuel
        (items ++ [⟨env.inputJson itemIndex, none, some e⟩]) (itemIndex + 1) ∧
    runLoop env7 "v" 0 5 items3 0 =
      .done [⟨0, some wavX, none⟩, ⟨1, none, none⟩, ⟨2, some wavX, none⟩,
             ⟨1, some wavX, some (.synthesis "synth boom")⟩] :=
  ⟨runLoop_continueOnFail_append env voice pauseDuration fuel items itemIndex e
    hlt hcont hfail, runLoop_env7_eval⟩

/-- C7 witness: the first iteration of the all-fail run appends the error item
and continues. -/
theorem C7_failed_item_appended_witness :
    runLoop env7 "v" 0 (0 + 1) items3 1 =
      runLoop env7 "v" 0 0 (items3 ++ [⟨1, none, some (.synthesis "synth boom")⟩]) (1 + 1) ∧
    runLoop env7 "v" 0 5 items3 0 =
      .done [⟨0, some wavX, none⟩, ⟨1, none, none⟩, ⟨2, some wavX, none⟩,
             ⟨1, some wavX, some (.synthesis "synth boom")⟩] :=
  C7_failed_item_appended env7 "v" 0 0 items3 1 (.synthesis "synth boom")
    (by decide) rfl (houtcome7 1)

/-- C8 counterexample: negative pause durations are not rejected anywhere
before silence generation. A tiny negative pause (-1/100000 s) flows through
the whole job and the item succeeds — no validation ever fires — while a pause
of -1/2 s only fails when the silence-buffer construction itself
(`new Float32Array(22050 * -0.5)`) raises its `RangeError`. -/
theorem C8_counterexample :
    ((-1 : ℚ)/100000 < 0) ∧
    processItem stubGen "v" ((-1)/100000) "x" =
      .ok { channels := 1, samplingRate := 22050, bitDepth := "16", samples := [0] } ∧
    processItem stubGen "v" ((-1)/2) "x" = .error .rangeError := by
  refine ⟨by norm_num, ?_, ?_⟩
  · have hseg : segment "x" = ["x"] := by decide
    have hstub : stubF "x" = ⟨[0], 22050⟩ := by decide
    rw [processItem, if_neg (by decide : ¬("x" : String) = ""), hseg, assembleAudio]
    simp only [assembleLoop, stubGen, hstub,
      newFloat32Array_of_neg_small
        (show (-1 : ℚ) < 22050 * ((-1)/100000) by norm_num)
        (show (22050 : ℚ) * ((-1)/100000) < 0 by norm_num),
      concatFloat32Arrays]
    norm_num [float32ToInt16, toInt16, wrapInt16, jsTrunc]
  · rw [processItem, if_neg (by decide : ¬("x" : String) = ""), assembleAudio,
      newFloat32Array_of_le_neg_one (show (22050 : ℚ) * ((-1)/2) ≤ -1 by norm_num)]

/-- C8 amended: the job performs no validation of the pause duration. A
negative pause reaches silence generation: whenever `22050 * pause ≤ -1`, the
very first silence-buffer construction (line 113, before any synthesis)
raises `RangeError`, surfaced as an item-scoped error — and a tiny negative
pause whose product truncates to zero is not rejected at all. -/
theorem C8_negative_pause_reaches_silence
    (generate : String → String → Except String SynthResult) (voice : String)
    (pauseDuration : ℚ) (text : String)
    (htext : text ≠ "") (hbig : 22050 * pauseDuration ≤ -1) :
    processItem generate voice pauseDuration text = .error .rangeError := by
  rw [processItem, if_neg htext, assembleAudio, newFloat32Array_of_le_neg_one hbig]

/-- C8 witness: the pause -1/2 with text `x` reaches the silence constructor
and errors there. -/
theorem C8_negative_pause_reaches_silence_witness :
    processItem stubGen "v" ((-1)/2) "x" = .error .rangeError :=
  C8_negative_pause_reaches_silence stubGen "v" ((-1)/2) "x" (by decide) (by norm_num)

/-- The all-fail run: every item index resolves to an empty text, so every
iteration raises `noText`; continue-on-failure is active. -/
def env9 : Env := ⟨fun _ => "", fun _ => 0, fun _ _ => .error "unused", true⟩

theorem runLoop_env9_allFail (voice : String) (pauseDuration : ℚ) :
    ∀ (fuel : ℕ) (items : List OutItem) (itemIndex : ℕ), itemIndex < items.length →
      runLoop env9 voice pauseDuration fuel items itemIndex =
        .outOfFuel (items ++ List.replicate fuel ⟨0, none, some .noText⟩)
          (itemIndex + fuel) := by
  intro fuel
  induction fuel with
  | zero => intro items itemIndex h; simp [runLoop]
  | succ n ih =>
    intro items itemIndex h
    have hp : processItem env9.generate voice pauseDuration (env9.textOf itemIndex) =
        .error .noText := rfl
    rw [runLoop, if_pos h, hp]
    show runLoop env9 voice pauseDuration n
      (items ++ [⟨0, none, some JsError.noText⟩]) (itemIndex + 1) = _
    have h2 : itemIndex + 1 <
        (items ++ [(⟨0, none, some JsError.noText⟩ : OutItem)]).length := by
      simp only [List.length_append, List.length_cons, List.length_nil]
      omega
    rw [ih _ _ h2]
    congr 1
    · simp [List.replicate_succ]
    · omega

/-- C9: the loop bound `items.length` is re-read each iteration, so error items
appended under continue-on-failure are themselves visited as input items: in a
run starting from one item whose every processing attempt fails, the loop is
still running after any number `fuel` of iterations — each visit, including
the visits to previously appended error items, having appended one more error
item — so the iteration count is not bounded by the original item count. -/
theorem C9_appended_items_revisited (fuel : ℕ) :
    runLoop env9 "v" 0 fuel [⟨0, none, none⟩] 0 =
      .outOfFuel (⟨0, none, none⟩ :: List.replicate fuel ⟨0, none, some .noText⟩) fuel := by
  have h := runLoop_env9_allFail "v" 0 fuel [⟨0, none, none⟩] 0 (by simp)
  simpa using h

/-- C10: the voice and pause-duration parameters are read once, at item
index 0; two runs whose parameter resolutions agree at index 0 — wherever
they differ for every other index — produce identical outcomes on the same
input collection. -/
theorem C10_params_from_index_zero (env : Env)
    (voiceOf voiceOf' : ℕ → String) (pauseOf pauseOf' : ℕ → ℚ)
    (fuel : ℕ) (items : List OutItem)
    (hvoice : voiceOf 0 = voiceOf' 0) (hpause : pauseOf 0 = pauseOf' 0) :
    executeNode env voiceOf pauseOf fuel items =
      executeNode env voiceOf' pauseOf' fuel items := by
  rw [executeNode, executeNode, hvoice, hpause]

/-- C10 witness: a run whose voice and pause parameters take different values
at every index other than 0 gives the same result as the constant one. -/
theorem C10_params_from_index_zero_witness :
    executeNode env9 (fun _ => "af_heart") (fun _ => (1 : ℚ)/2) 1 [⟨0, none, none⟩] =
      executeNode env9 (fun i => if i = 0 then "af_heart" else "bm_lewis")
        (fun i => if i = 0 then (1 : ℚ)/2 else 99) 1 [⟨0, none, none⟩] :=
  C10_params_from_index_zero env9 (fun _ => "af_heart")
    (fun i => if i = 0 then "af_heart" else "bm_lewis")
    (fun _ => (1 : ℚ)/2) (fun i => if i = 0 then (1 : ℚ)/2 else 99)
    1 [⟨0, none, none⟩] rfl rfl

end TTS
